import Mathlib

/-!
Verification of the flash record manager from
`flash_ops.c` / `flash_ops_helper.c` (Raspberry Pi Pico flash operations).

The C code manages one logical record per 4096-byte flash sector.  A record
is the C struct `flash_data`:

    typedef struct {
        bool valid;
        uint32_t write_count;
        size_t data_len;
        const uint8_t *data_ptr;
    } flash_data;

On the RP2040 (32-bit ARM) `sizeof(flash_data)` is 16 (1 byte bool, 3 bytes
padding, 4-byte uint32, 4-byte size_t, 4-byte pointer), `size_t` is 32 bits,
and the machine is little-endian.  The public operations only ever program
`METADATA_SIZE = sizeof(flash_data)` bytes (the raw struct) at the start of a
sector, and read them back by `memcpy`; the payload itself stays in RAM
behind `data_ptr`.  We therefore model a sector's flash contents as the
decoded struct, with `data_ptr` modelled as the byte sequence it points at
(`none` for a NULL or wild pointer), and `valid` as the raw byte backing the
C `bool` (0 = false; a freshly erased flash byte is 0xFF, which tests true).

Unsigned 32-bit arithmetic is modelled on `Nat` with explicit `% 2^32`.
Errors in the C code are signalled only through `printf` on early-return
branches; each such branch is modelled by the corresponding error value.
Calls to the hardware primitives (`save_and_disable_interrupts`,
`flash_range_erase`, `flash_range_program`, `restore_interrupts`) are
recorded as an event trace.
-/

/-- Geometry constant: `FLASH_TARGET_OFFSET = 256 * 1024` from flash_ops.c. -/
def FLASH_TARGET_OFFSET : Nat := 262144

/-- Geometry constant: `FLASH_SECTOR_SIZE = 4096` on the RP2040. -/
def FLASH_SECTOR_SIZE : Nat := 4096

/-- Geometry constant: `PICO_FLASH_SIZE_BYTES = 2 MiB` on the Pico board. -/
def FLASH_SIZE : Nat := 2097152

/-- Size constant: `METADATA_SIZE = sizeof(flash_data) = 16` on 32-bit ARM. -/
def METADATA_SIZE : Nat := 16

/-- Modulus of `uint32_t` / 32-bit `size_t` arithmetic. -/
def U32 : Nat := 4294967296

/-- The in-memory record struct `flash_data` from flash_ops.h.  `valid` is the
raw byte backing the C `bool` (0 means false); `data_ptr` is the byte
sequence the stored pointer refers to, `none` standing for a NULL (or wild,
never dereferenced in the verified paths) pointer. -/
structure flash_data where
  valid : Nat
  write_count : Nat
  data_len : Nat
  data_ptr : Option (List Nat)
deriving DecidableEq

/-- Flash memory, as the decoded metadata struct stored at each sector-start
address.  All programmed accesses in the modelled operations are
`METADATA_SIZE` bytes at a sector-aligned address. -/
def Mem : Type := Nat → flash_data

/-- Pointwise update of the flash memory at one sector address. -/
def updMem (mem : Mem) (a : Nat) (v : flash_data) : Mem :=
  fun b => if b = a then v else mem b

/-- Error taxonomy: one value per distinct `printf`-and-return error branch
of the C public operations. -/
inductive FlashError where
  | NullOrEmptyPayload
  | MisalignedOffset
  | PayloadTooLarge
  | OutOfRange
  | InvalidOrUninitialized
deriving DecidableEq

/-- Hardware-primitive events emitted by an operation, in program order. -/
inductive Event where
  | disableInterrupts
  | restoreInterrupts
  | rangeErase (addr len : Nat)
  | rangeProgram (addr len : Nat)
deriving DecidableEq

/-- Absolute flash address `flash_offset = FLASH_TARGET_OFFSET + offset`,
computed in `uint32_t` arithmetic. -/
def flashAddr (offset : Nat) : Nat :=
  (FLASH_TARGET_OFFSET + offset) % U32

/-- The metadata struct a freshly erased, never programmed sector decodes to:
every byte is 0xFF, so the `bool` byte is 0xFF, both 32-bit fields are
0xFFFFFFFF and the pointer is wild (never dereferenced here). -/
def freshBlock : flash_data :=
  { valid := 255, write_count := 4294967295, data_len := 4294967295,
    data_ptr := none }

/-- Model of `flash_write_safe_struct` (flash_ops.c lines 92-128): disable
interrupts, read the current metadata at `offset`, map the erased sentinel
write count `(uint32_t)-1` to 0, store the incremented count and the new
payload with `valid = true`, via erase-then-program, then restore
interrupts.  `new_data` arrives with `write_count = 0` and `valid` unset,
exactly as built by `flash_write_safe`. -/
def flash_write_safe_struct (mem : Mem) (offset : Nat) (new_data : flash_data) :
    Mem × List Event × Option FlashError :=
  let current := mem offset
  let base := if current.write_count = U32 - 1 then 0 else current.write_count
  let stored : flash_data :=
    { valid := 1, write_count := (base + 1) % U32,
      data_len := new_data.data_len, data_ptr := new_data.data_ptr }
  (updMem mem offset stored,
   [Event.disableInterrupts,
    Event.rangeErase offset FLASH_SECTOR_SIZE,
    Event.rangeProgram offset METADATA_SIZE,
    Event.restoreInterrupts],
   none)

/-- Model of `flash_write_safe` (flash_ops.c lines 42-80): null/empty check,
alignment check, payload-size check, bounds check — in that order — then the
structured write.  `data = none` models a NULL data pointer; `data_len` is
the separately passed length argument. -/
def flash_write_safe (mem : Mem) (offset : Nat) (data : Option (List Nat))
    (data_len : Nat) : Mem × List Event × Option FlashError :=
  let flash_offset := flashAddr offset
  if data = none ∨ data_len = 0 then
    (mem, [], some FlashError.NullOrEmptyPayload)
  else if flash_offset % FLASH_SECTOR_SIZE ≠ 0 then
    (mem, [], some FlashError.MisalignedOffset)
  else if data_len > FLASH_SECTOR_SIZE - METADATA_SIZE then
    (mem, [], some FlashError.PayloadTooLarge)
  else if (flash_offset + METADATA_SIZE) % U32 > FLASH_TARGET_OFFSET + FLASH_SIZE then
    (mem, [], some FlashError.OutOfRange)
  else
    flash_write_safe_struct mem flash_offset
      { valid := 0, write_count := 0, data_len := data_len, data_ptr := data }

/-- Model of `flash_read_safe_struct` (flash_ops.c lines 193-204): bounds
check, then a `memcpy` of the metadata into the caller struct.  On the
failing bounds check the caller's `memset`-zeroed struct is left untouched,
so the result decodes as all-zero. -/
def flash_read_safe_struct (mem : Mem) (offset : Nat) : flash_data :=
  if (offset + METADATA_SIZE) % U32 > FLASH_TARGET_OFFSET + FLASH_SIZE then
    { valid := 0, write_count := 0, data_len := 0, data_ptr := none }
  else
    mem offset

/-- Model of `flash_read_safe` (flash_ops.c lines 141-181): alignment and
bounds checks, structured read, validity check, then a copy of
`min(buffer_len, data_len)` bytes from the stored payload pointer into the
caller buffer.  The C function returns `void`; the caller-visible outputs
are the buffer contents and the event/error behaviour, returned here
together.  `buffer_len` is the length argument the C caller passes alongside
the buffer. -/
def flash_read_safe (mem : Mem) (offset : Nat) (buffer : List Nat)
    (buffer_len : Nat) : List Nat × List Event × Option FlashError :=
  let flash_offset := flashAddr offset
  if flash_offset % FLASH_SECTOR_SIZE ≠ 0 then
    (buffer, [], some FlashError.MisalignedOffset)
  else if (flash_offset + METADATA_SIZE) % U32 > FLASH_TARGET_OFFSET + FLASH_SIZE then
    (buffer, [], some FlashError.OutOfRange)
  else
    let flashData := flash_read_safe_struct mem flash_offset
    if flashData.valid = 0 ∨ flashData.data_len = 0 then
      (buffer, [], some FlashError.InvalidOrUninitialized)
    else
      let n := min buffer_len flashData.data_len
      let src := flashData.data_ptr.getD []
      ((List.range n).map (fun i => src.getD i 0) ++ buffer.drop n, [], none)

/-- Model of `flash_erase_safe` (flash_ops.c lines 215-266): alignment and
bounds checks, then — inside the interrupt-disabled section — the sector
start computation `flash_offset & ~(FLASH_SECTOR_SIZE - 1)`, a further
sector bound check (restoring interrupts on its error exit), a metadata
backup, erase of the sector, and reprogramming of the invalidated metadata
carrying the backed-up write count. -/
def flash_erase_safe (mem : Mem) (offset : Nat) :
    Mem × List Event × Option FlashError :=
  let flash_offset := flashAddr offset
  if flash_offset % FLASH_SECTOR_SIZE ≠ 0 then
    (mem, [], some FlashError.MisalignedOffset)
  else if (flash_offset + METADATA_SIZE) % U32 > FLASH_TARGET_OFFSET + FLASH_SIZE then
    (mem, [], some FlashError.OutOfRange)
  else
    let sector_start := flash_offset - flash_offset % FLASH_SECTOR_SIZE
    if sector_start ≥ FLASH_TARGET_OFFSET + FLASH_SIZE then
      (mem, [Event.disableInterrupts, Event.restoreInterrupts],
       some FlashError.OutOfRange)
    else
      let backup := mem sector_start
      (updMem mem sector_start
        { valid := 0, write_count := backup.write_count, data_len := 0,
          data_ptr := none },
       [Event.disableInterrupts,
        Event.rangeErase sector_start FLASH_SECTOR_SIZE,
        Event.rangeProgram sector_start METADATA_SIZE,
        Event.restoreInterrupts],
       none)

/-- Model of `get_flash_write_count` (flash_ops.c lines 280-304): alignment
and bounds checks returning 0 on failure, otherwise the raw stored
`write_count` field. -/
def get_flash_write_count (mem : Mem) (offset : Nat) : Nat × Option FlashError :=
  let flash_offset := flashAddr offset
  if flash_offset % FLASH_SECTOR_SIZE ≠ 0 then
    (0, some FlashError.MisalignedOffset)
  else if (flash_offset + METADATA_SIZE) % U32 > FLASH_TARGET_OFFSET + FLASH_SIZE then
    (0, some FlashError.OutOfRange)
  else
    ((mem flash_offset).write_count, none)

/-- Model of `get_flash_data_length` (flash_ops.c lines 317-344): alignment
and bounds checks returning 0 on failure, otherwise the raw stored
`data_len` field. -/
def get_flash_data_length (mem : Mem) (offset : Nat) : Nat × Option FlashError :=
  let flash_offset := flashAddr offset
  if flash_offset % FLASH_SECTOR_SIZE ≠ 0 then
    (0, some FlashError.MisalignedOffset)
  else if (flash_offset + METADATA_SIZE) % U32 > FLASH_TARGET_OFFSET + FLASH_SIZE then
    (0, some FlashError.OutOfRange)
  else
    ((mem flash_offset).data_len, none)

/-- One public operation of the record manager, with its arguments. -/
inductive FlashOp where
  | write (offset : Nat) (data : Option (List Nat)) (data_len : Nat)
  | read (offset : Nat) (buffer : List Nat) (buffer_len : Nat)
  | erase (offset : Nat)
  | getWriteCount (offset : Nat)
  | getDataLength (offset : Nat)

/-- Effect of one public operation on the flash memory (reads and the two
query operations never modify flash). -/
def stepMem (op : FlashOp) (mem : Mem) : Mem :=
  match op with
  | FlashOp.write offset data data_len => (flash_write_safe mem offset data data_len).1
  | FlashOp.read _ _ _ => mem
  | FlashOp.erase offset => (flash_erase_safe mem offset).1
  | FlashOp.getWriteCount _ => mem
  | FlashOp.getDataLength _ => mem

/-- Number of payload bytes `flash_read_safe` copies on its success path:
the `buffer_len = min(buffer_len, data_len)` adjustment of flash_ops.c
lines 173-175. -/
def bytes_copied (mem : Mem) (offset : Nat) (buffer_len : Nat) : Nat :=
  min buffer_len ((mem (flashAddr offset)).data_len)

/-!
Record codec from flash_ops_helper.c.  `serialize_flash_data` lays the
struct out as `valid` (1 byte), `write_count` (4 bytes, little-endian),
`data_len` (4 bytes, little-endian), then the payload bytes; its own
`required_size` computation makes the serialized metadata header
`sizeof(valid) + sizeof(write_count) + sizeof(data_len) = 9` bytes — note
this differs from the in-memory `METADATA_SIZE = sizeof(flash_data) = 16`
used by the flash operations.  `deserialize_flash_data` takes only a
pointer, so it is modelled over the whole byte memory reachable from that
pointer, as a total function `Nat → Nat`.
-/

/-- Serialized metadata header size of the codec:
`sizeof(valid) + sizeof(write_count) + sizeof(data_len) = 1 + 4 + 4`. -/
def SERIALIZED_METADATA_SIZE : Nat := 9

/-- Little-endian 4-byte encoding of a 32-bit value, as `memcpy` of a
`uint32_t` produces on the little-endian RP2040. -/
def le4 (n : Nat) : List Nat :=
  [n % 256, n / 256 % 256, n / 65536 % 256, n / 16777216 % 256]

/-- Little-endian 4-byte read at index `i` of a byte memory, as `memcpy`
into a `uint32_t` produces. -/
def rd4 (m : Nat → Nat) (i : Nat) : Nat :=
  m i + 256 * m (i + 1) + 65536 * m (i + 2) + 16777216 * m (i + 3)

/-- Byte memory starting at a buffer pointer: the buffer's bytes followed by
whatever bytes happen to lie after it.  Reads beyond `buf ++ rest` default
to 0. -/
def memOfBuffer (buf rest : List Nat) : Nat → Nat :=
  fun i => (buf ++ rest).getD i 0

/-- Model of `serialize_flash_data` (flash_ops_helper.c lines 123-151):
checks the buffer against `required_size = 9 + data_len` (size_t
arithmetic), then writes `valid`, `write_count`, `data_len` and — only when
the pointer is non-NULL and the length non-zero — the payload bytes, leaving
the rest of the buffer unchanged.  The result is the buffer's contents after
the call. -/
def serialize_flash_data (d : flash_data) (buffer : List Nat) : List Nat :=
  let required := (SERIALIZED_METADATA_SIZE + d.data_len) % U32
  if buffer.length < required then buffer
  else
    let header := [d.valid % 256] ++ le4 d.write_count ++ le4 d.data_len
    match d.data_ptr with
    | some p =>
      if 0 < d.data_len then
        header ++ (List.range d.data_len).map (fun i => p.getD i 0) ++
          buffer.drop (SERIALIZED_METADATA_SIZE + d.data_len)
      else header ++ buffer.drop SERIALIZED_METADATA_SIZE
    | none => header ++ buffer.drop SERIALIZED_METADATA_SIZE

/-- Model of `deserialize_flash_data` (flash_ops_helper.c lines 164-189):
reads the 9 header bytes, then `malloc`s and copies exactly `data_len`
payload bytes starting at byte 9.  The function receives only a pointer —
no buffer length — so it is modelled over the byte memory `m` at that
pointer and always produces a record (allocation is modelled as
succeeding). -/
def deserialize_flash_data (m : Nat → Nat) : flash_data :=
  let data_len := rd4 m 5
  { valid := m 0, write_count := rd4 m 1, data_len := data_len,
    data_ptr := some ((List.range data_len).map (fun i => m (9 + i))) }

/-- Flash memory in the factory-fresh state: every sector erased and never
programmed. -/
def memFresh : Mem := fun _ => freshBlock

/-- Flash memory with one record written at offset 4096, used to instantiate
universally quantified theorems at a concrete input. -/
def memWritten : Mem := (flash_write_safe memFresh 4096 (some [170, 170]) 2).1

/-- A block at sector address a is in the post-erase state: invalidated with
zero payload length. -/
abbrev erasedAt (mem : Mem) (a : Nat) : Prop :=
  (mem a).valid = 0 ∧ (mem a).data_len = 0

/-- Memory holding a valid record of payload length 2 at offset 4096. -/
def memLen2 : Mem :=
  updMem memFresh (flashAddr 4096)
    { valid := 1, write_count := 5, data_len := 2, data_ptr := some [5, 6, 7] }

/-- Memory holding a valid record of payload length 3 at offset 4096. -/
def memLen3 : Mem :=
  updMem memFresh (flashAddr 4096)
    { valid := 1, write_count := 5, data_len := 3, data_ptr := some [5, 6, 7] }

/-- Claim C6 counterexample input: a 3-byte buffer, shorter than the
9-byte serialized metadata header (and than the 16-byte in-memory struct),
followed in memory by seven further bytes. -/
def shortBuffer : List Nat := [1, 2, 3]

/-!  Helper lemmas and claim theorems. -/

theorem updMem_same (mem : Mem) (a : Nat) (v : flash_data) :
    updMem mem a v a = v := by
  simp [updMem]

theorem aligned_inbounds_lt (a : Nat) (ha : a < U32)
    (halign : a % FLASH_SECTOR_SIZE = 0)
    (hbound : (a + METADATA_SIZE) % U32 ≤ FLASH_TARGET_OFFSET + FLASH_SIZE) :
    a < FLASH_TARGET_OFFSET + FLASH_SIZE := by
  unfold U32 FLASH_SECTOR_SIZE METADATA_SIZE FLASH_TARGET_OFFSET FLASH_SIZE at *
  omega

theorem flashAddr_lt (offset : Nat) : flashAddr offset < U32 := by
  unfold flashAddr U32
  omega

theorem flash_write_safe_ok (mem : Mem) (offset : Nat) (p : List Nat)
    (data_len : Nat)
    (halign : flashAddr offset % FLASH_SECTOR_SIZE = 0)
    (hbound : (flashAddr offset + METADATA_SIZE) % U32 ≤
      FLASH_TARGET_OFFSET + FLASH_SIZE)
    (hpos : data_len ≠ 0)
    (hmax : data_len ≤ FLASH_SECTOR_SIZE - METADATA_SIZE) :
    flash_write_safe mem offset (some p) data_len =
      (updMem mem (flashAddr offset)
        { valid := 1,
          write_count :=
            ((if (mem (flashAddr offset)).write_count = U32 - 1 then 0
              else (mem (flashAddr offset)).write_count) + 1) % U32,
          data_len := data_len, data_ptr := some p },
       [Event.disableInterrupts,
        Event.rangeErase (flashAddr offset) FLASH_SECTOR_SIZE,
        Event.rangeProgram (flashAddr offset) METADATA_SIZE,
        Event.restoreInterrupts],
       none) := by
  unfold flash_write_safe flash_write_safe_struct
  rw [if_neg (by simp [hpos])]
  rw [if_neg (by simp [halign])]
  rw [if_neg (by omega)]
  rw [if_neg (by omega)]

theorem flash_read_safe_struct_inbounds (mem : Mem) (a : Nat)
    (hbound : (a + METADATA_SIZE) % U32 ≤ FLASH_TARGET_OFFSET + FLASH_SIZE) :
    flash_read_safe_struct mem a = mem a := by
  unfold flash_read_safe_struct
  rw [if_neg (by omega)]

theorem flash_read_safe_ok (mem : Mem) (offset : Nat) (buffer : List Nat)
    (buffer_len : Nat)
    (halign : flashAddr offset % FLASH_SECTOR_SIZE = 0)
    (hbound : (flashAddr offset + METADATA_SIZE) % U32 ≤
      FLASH_TARGET_OFFSET + FLASH_SIZE)
    (hv : (mem (flashAddr offset)).valid ≠ 0)
    (hl : (mem (flashAddr offset)).data_len ≠ 0) :
    flash_read_safe mem offset buffer buffer_len =
      ((List.range (min buffer_len (mem (flashAddr offset)).data_len)).map
          (fun i => ((mem (flashAddr offset)).data_ptr.getD []).getD i 0) ++
        buffer.drop (min buffer_len (mem (flashAddr offset)).data_len),
       [], none) := by
  simp only [flash_read_safe]
  rw [flash_read_safe_struct_inbounds mem (flashAddr offset) hbound]
  rw [if_neg (by simp [halign])]
  rw [if_neg (by omega)]
  rw [if_neg (by simp [hv, hl])]

theorem range_map_getD (p : List Nat) :
    (List.range p.length).map (fun i => p.getD i 0) = p := by
  apply List.ext_getElem
  · simp
  · intro i h1 h2
    simp only [List.getElem_map, List.getElem_range]
    rw [List.getD_eq_getElem]

theorem flash_read_back (mem : Mem) (offset wc : Nat) (p buffer : List Nat)
    (buffer_len : Nat)
    (halign : flashAddr offset % FLASH_SECTOR_SIZE = 0)
    (hbound : (flashAddr offset + METADATA_SIZE) % U32 ≤
      FLASH_TARGET_OFFSET + FLASH_SIZE)
    (hmem : mem (flashAddr offset) =
      { valid := 1, write_count := wc, data_len := p.length, data_ptr := some p })
    (hpos : 0 < p.length)
    (hbuf : p.length ≤ buffer_len) :
    (flash_read_safe mem offset buffer buffer_len).2.2 = none ∧
    ((flash_read_safe mem offset buffer buffer_len).1).take p.length = p := by
  rw [flash_read_safe_ok mem offset buffer buffer_len halign hbound
    (by rw [hmem]; exact Nat.one_ne_zero) (by rw [hmem]; show p.length ≠ 0; omega)]
  refine ⟨rfl, ?_⟩
  rw [hmem]
  dsimp only
  have hmin : min buffer_len p.length = p.length := by omega
  simp only [Option.getD_some, hmin]
  rw [range_map_getD]
  exact List.take_left' rfl

/-- Claim C1: for every payload p with 0 < len(p) <= block_size -
metadata_size and every valid aligned in-bounds offset,
flash_write_safe(offset, p, len(p)) followed by flash_read_safe(offset, buf,
buffer_len) with buffer_len >= len(p) succeeds and leaves buf[0..len(p)]
equal to p. -/
theorem claim_C1_round_trip (mem : Mem) (offset : Nat) (p buffer : List Nat)
    (buffer_len : Nat)
    (halign : flashAddr offset % FLASH_SECTOR_SIZE = 0)
    (hbound : (flashAddr offset + METADATA_SIZE) % U32 ≤
      FLASH_TARGET_OFFSET + FLASH_SIZE)
    (hpos : 0 < p.length)
    (hmax : p.length ≤ FLASH_SECTOR_SIZE - METADATA_SIZE)
    (hbuf : p.length ≤ buffer_len) :
    (flash_write_safe mem offset (some p) p.length).2.2 = none ∧
    (flash_read_safe (flash_write_safe mem offset (some p) p.length).1
        offset buffer buffer_len).2.2 = none ∧
    ((flash_read_safe (flash_write_safe mem offset (some p) p.length).1
        offset buffer buffer_len).1).take p.length = p := by
  rw [flash_write_safe_ok mem offset p p.length halign hbound (by omega) hmax]
  dsimp only
  have h := flash_read_back (updMem mem (flashAddr offset)
      { valid := 1,
        write_count :=
          ((if (mem (flashAddr offset)).write_count = U32 - 1 then 0
            else (mem (flashAddr offset)).write_count) + 1) % U32,
        data_len := p.length, data_ptr := some p })
    offset
    (((if (mem (flashAddr offset)).write_count = U32 - 1 then 0
        else (mem (flashAddr offset)).write_count) + 1) % U32)
    p buffer buffer_len halign hbound (updMem_same _ _ _) hpos hbuf
  exact ⟨rfl, h.1, h.2⟩

theorem get_flash_write_count_ok (mem : Mem) (offset : Nat)
    (halign : flashAddr offset % FLASH_SECTOR_SIZE = 0)
    (hbound : (flashAddr offset + METADATA_SIZE) % U32 ≤
      FLASH_TARGET_OFFSET + FLASH_SIZE) :
    get_flash_write_count mem offset = ((mem (flashAddr offset)).write_count, none) := by
  simp only [get_flash_write_count]
  rw [if_neg (by simp [halign]), if_neg (by omega)]

theorem get_flash_data_length_ok (mem : Mem) (offset : Nat)
    (halign : flashAddr offset % FLASH_SECTOR_SIZE = 0)
    (hbound : (flashAddr offset + METADATA_SIZE) % U32 ≤
      FLASH_TARGET_OFFSET + FLASH_SIZE) :
    get_flash_data_length mem offset = ((mem (flashAddr offset)).data_len, none) := by
  simp only [get_flash_data_length]
  rw [if_neg (by simp [halign]), if_neg (by omega)]

theorem flash_erase_safe_ok (mem : Mem) (offset : Nat)
    (halign : flashAddr offset % FLASH_SECTOR_SIZE = 0)
    (hbound : (flashAddr offset + METADATA_SIZE) % U32 ≤
      FLASH_TARGET_OFFSET + FLASH_SIZE) :
    flash_erase_safe mem offset =
      (updMem mem (flashAddr offset)
        { valid := 0, write_count := (mem (flashAddr offset)).write_count,
          data_len := 0, data_ptr := none },
       [Event.disableInterrupts,
        Event.rangeErase (flashAddr offset) FLASH_SECTOR_SIZE,
        Event.rangeProgram (flashAddr offset) METADATA_SIZE,
        Event.restoreInterrupts], none) := by
  have hlt := aligned_inbounds_lt (flashAddr offset) (flashAddr_lt offset) halign hbound
  simp only [flash_erase_safe]
  rw [if_neg (by simp [halign]), if_neg (by omega), halign, Nat.sub_zero,
      if_neg (by omega)]

/-- Witness for claim C1: offset 4096, payload [11, 22, 33], 5-byte caller
buffer, on fresh flash. -/
theorem claim_C1_round_trip_witness :
    (flash_write_safe memFresh 4096 (some [11, 22, 33]) 3).2.2 = none ∧
    (flash_read_safe (flash_write_safe memFresh 4096 (some [11, 22, 33]) 3).1
        4096 [0, 0, 0, 0, 0] 5).2.2 = none ∧
    ((flash_read_safe (flash_write_safe memFresh 4096 (some [11, 22, 33]) 3).1
        4096 [0, 0, 0, 0, 0] 5).1).take 3 = [11, 22, 33] :=
  claim_C1_round_trip memFresh 4096 [11, 22, 33] [0, 0, 0, 0, 0] 5
    (by decide) (by decide) (by decide) (by decide) (by decide)

/-- Claim C2 (amended): at every valid aligned in-bounds offset, a
successful flash_write_safe increments the value reported by
get_flash_write_count by exactly 1 whenever the stored counter is below the
erased-flash sentinel 0xFFFFFFFF, sets it to 1 when the stored counter is
the sentinel, and flash_erase_safe preserves the reported counter
unchanged (never resets it). -/
theorem claim_C2_write_count (mem : Mem) (offset : Nat) (p : List Nat)
    (data_len : Nat)
    (halign : flashAddr offset % FLASH_SECTOR_SIZE = 0)
    (hbound : (flashAddr offset + METADATA_SIZE) % U32 ≤
      FLASH_TARGET_OFFSET + FLASH_SIZE)
    (hpos : data_len ≠ 0)
    (hmax : data_len ≤ FLASH_SECTOR_SIZE - METADATA_SIZE) :
    (flash_write_safe mem offset (some p) data_len).2.2 = none ∧
    ((mem (flashAddr offset)).write_count < U32 - 1 →
      (get_flash_write_count (flash_write_safe mem offset (some p) data_len).1
          offset).1 = (get_flash_write_count mem offset).1 + 1) ∧
    ((mem (flashAddr offset)).write_count = U32 - 1 →
      (get_flash_write_count (flash_write_safe mem offset (some p) data_len).1
          offset).1 = 1) ∧
    (flash_erase_safe mem offset).2.2 = none ∧
    (get_flash_write_count (flash_erase_safe mem offset).1 offset).1
      = (get_flash_write_count mem offset).1 := by
  rw [flash_write_safe_ok mem offset p data_len halign hbound hpos hmax,
      flash_erase_safe_ok mem offset halign hbound]
  dsimp only
  rw [get_flash_write_count_ok _ offset halign hbound,
      get_flash_write_count_ok _ offset halign hbound,
      get_flash_write_count_ok _ offset halign hbound,
      updMem_same, updMem_same]
  refine ⟨rfl, ?_, ?_, rfl, rfl⟩
  · intro hlt
    rw [if_neg (by omega)]
    dsimp only
    have : (mem (flashAddr offset)).write_count + 1 < U32 := by
      unfold U32 at *
      omega
    rw [Nat.mod_eq_of_lt this]
  · intro hs
    rw [if_pos hs]
    show (0 + 1) % U32 = 1
    decide

/-- Witness for claim C2 at offset 4096 on a once-written block, whose
stored counter 1 is below the sentinel. -/
theorem claim_C2_write_count_witness :
    (memWritten (flashAddr 4096)).write_count < U32 - 1 ∧
    ((flash_write_safe memWritten 4096 (some [7]) 1).2.2 = none ∧
    ((memWritten (flashAddr 4096)).write_count < U32 - 1 →
      (get_flash_write_count (flash_write_safe memWritten 4096 (some [7]) 1).1
          4096).1 = (get_flash_write_count memWritten 4096).1 + 1) ∧
    ((memWritten (flashAddr 4096)).write_count = U32 - 1 →
      (get_flash_write_count (flash_write_safe memWritten 4096 (some [7]) 1).1
          4096).1 = 1) ∧
    (flash_erase_safe memWritten 4096).2.2 = none ∧
    (get_flash_write_count (flash_erase_safe memWritten 4096).1 4096).1
      = (get_flash_write_count memWritten 4096).1) :=
  ⟨by decide, claim_C2_write_count memWritten 4096 [7] 1 (by decide) (by decide)
    (by decide) (by decide)⟩

/-- Counterexample to claim C2 as stated: on a fresh block,
get_flash_write_count reports the sentinel 4294967295 before the first
write and 1 after it — not an increase by exactly 1 (neither exactly nor
modulo 2^32). -/
theorem claim_C2_counterexample :
    (get_flash_write_count memFresh 4096).1 = 4294967295 ∧
    (flash_write_safe memFresh 4096 (some [170]) 1).2.2 = none ∧
    (get_flash_write_count (flash_write_safe memFresh 4096 (some [170]) 1).1
        4096).1 = 1 ∧
    (get_flash_write_count (flash_write_safe memFresh 4096 (some [170]) 1).1
        4096).1 ≠ (get_flash_write_count memFresh 4096).1 + 1 ∧
    (get_flash_write_count (flash_write_safe memFresh 4096 (some [170]) 1).1
        4096).1 ≠ ((get_flash_write_count memFresh 4096).1 + 1) % U32 := by
  decide

theorem updMem_other (mem : Mem) (a b : Nat) (v : flash_data) (h : b ≠ a) :
    updMem mem a v b = mem b := by
  simp [updMem, h]

theorem flash_write_safe_cases (mem : Mem) (offset : Nat)
    (d : Option (List Nat)) (l : Nat) :
    (flash_write_safe mem offset d l).1 = mem ∨
    ((flash_write_safe mem offset d l).2.2 = none ∧
      ∃ wc, (flash_write_safe mem offset d l).1 =
        updMem mem (flashAddr offset)
          { valid := 1, write_count := wc, data_len := l, data_ptr := d }) := by
  simp only [flash_write_safe, flash_write_safe_struct]
  split
  · exact Or.inl rfl
  split
  · exact Or.inl rfl
  split
  · exact Or.inl rfl
  split
  · exact Or.inl rfl
  · exact Or.inr ⟨rfl, _, rfl⟩

theorem flash_erase_safe_cases (mem : Mem) (offset : Nat) :
    (flash_erase_safe mem offset).1 = mem ∨
    ∃ a wc, (flash_erase_safe mem offset).1 =
      updMem mem a
        { valid := 0, write_count := wc, data_len := 0, data_ptr := none } := by
  simp only [flash_erase_safe]
  split
  · exact Or.inl rfl
  split
  · exact Or.inl rfl
  split
  · exact Or.inl rfl
  · exact Or.inr ⟨_, _, rfl⟩

theorem erased_persists (op : FlashOp) (mem0 : Mem) (a : Nat)
    (h : erasedAt mem0 a) :
    erasedAt (stepMem op mem0) a ∨
    ∃ o d l, op = FlashOp.write o d l ∧ flashAddr o = a ∧
      (flash_write_safe mem0 o d l).2.2 = none := by
  cases op with
  | write o d l =>
    rcases flash_write_safe_cases mem0 o d l with hc | ⟨hok, wc, hc⟩
    · exact Or.inl (by simpa [stepMem, hc] using h)
    · by_cases heq : flashAddr o = a
      · exact Or.inr ⟨o, d, l, rfl, heq, hok⟩
      · left
        simp only [stepMem, hc]
        have hv2 := updMem_other mem0 (flashAddr o) a
          { valid := 1, write_count := wc, data_len := l, data_ptr := d }
          (fun hh => heq hh.symm)
        exact ⟨by rw [hv2]; exact h.1, by rw [hv2]; exact h.2⟩
  | read o buffer buffer_len => exact Or.inl h
  | erase o =>
    rcases flash_erase_safe_cases mem0 o with hc | ⟨b, wc, hc⟩
    · exact Or.inl (by simpa [stepMem, hc] using h)
    · left
      simp only [stepMem, hc]
      by_cases heq : a = b
      · subst heq
        have hv2 := updMem_same mem0 a
          { valid := 0, write_count := wc, data_len := 0, data_ptr := none }
        exact ⟨by rw [hv2], by rw [hv2]⟩
      · have hv2 := updMem_other mem0 b a
          { valid := 0, write_count := wc, data_len := 0, data_ptr := none } heq
        exact ⟨by rw [hv2]; exact h.1, by rw [hv2]; exact h.2⟩
  | getWriteCount o => exact Or.inl h
  | getDataLength o => exact Or.inl h

theorem flash_read_safe_invalid (mem : Mem) (offset : Nat) (buffer : List Nat)
    (buffer_len : Nat)
    (halign : flashAddr offset % FLASH_SECTOR_SIZE = 0)
    (hbound : (flashAddr offset + METADATA_SIZE) % U32 ≤
      FLASH_TARGET_OFFSET + FLASH_SIZE)
    (hv : (mem (flashAddr offset)).valid = 0 ∨ (mem (flashAddr offset)).data_len = 0) :
    flash_read_safe mem offset buffer buffer_len =
      (buffer, [], some FlashError.InvalidOrUninitialized) := by
  simp only [flash_read_safe]
  rw [flash_read_safe_struct_inbounds mem (flashAddr offset) hbound]
  rw [if_neg (by simp [halign]), if_neg (by omega), if_pos hv]

/-- Claim C3: after flash_erase_safe at a valid aligned in-bounds offset,
get_flash_data_length reports 0 and flash_read_safe fails
InvalidOrUninitialized leaving the caller buffer unchanged; the erased
state (valid = 0, data_len = 0) persists at that block under every further
public operation until the next successful write to that block. -/
theorem claim_C3_post_erase (mem : Mem) (offset : Nat)
    (halign : flashAddr offset % FLASH_SECTOR_SIZE = 0)
    (hbound : (flashAddr offset + METADATA_SIZE) % U32 ≤
      FLASH_TARGET_OFFSET + FLASH_SIZE) :
    (flash_erase_safe mem offset).2.2 = none ∧
    (get_flash_data_length (flash_erase_safe mem offset).1 offset).1 = 0 ∧
    (∀ buffer buffer_len,
      flash_read_safe (flash_erase_safe mem offset).1 offset buffer buffer_len =
        (buffer, [], some FlashError.InvalidOrUninitialized)) ∧
    erasedAt (flash_erase_safe mem offset).1 (flashAddr offset) ∧
    (∀ (op : FlashOp) (mem0 : Mem), erasedAt mem0 (flashAddr offset) →
      erasedAt (stepMem op mem0) (flashAddr offset) ∨
      ∃ o d l, op = FlashOp.write o d l ∧ flashAddr o = flashAddr offset ∧
        (flash_write_safe mem0 o d l).2.2 = none) := by
  rw [flash_erase_safe_ok mem offset halign hbound]
  dsimp only
  have hupd := updMem_same mem (flashAddr offset)
    { valid := 0, write_count := (mem (flashAddr offset)).write_count,
      data_len := 0, data_ptr := none }
  refine ⟨rfl, ?_, ?_, ?_, ?_⟩
  · rw [get_flash_data_length_ok _ offset halign hbound, hupd]
  · intro buffer buffer_len
    exact flash_read_safe_invalid _ offset buffer buffer_len halign hbound
      (Or.inl (by rw [hupd]))
  · exact ⟨by rw [hupd], by rw [hupd]⟩
  · intro op mem0 h0
    exact erased_persists op mem0 (flashAddr offset) h0

/-- Witness for claim C3 at offset 4096 on a once-written block. -/
theorem claim_C3_post_erase_witness :
    ((flash_erase_safe memWritten 4096).2.2 = none ∧
    (get_flash_data_length (flash_erase_safe memWritten 4096).1 4096).1 = 0 ∧
    (∀ buffer buffer_len,
      flash_read_safe (flash_erase_safe memWritten 4096).1 4096 buffer buffer_len =
        (buffer, [], some FlashError.InvalidOrUninitialized)) ∧
    erasedAt (flash_erase_safe memWritten 4096).1 (flashAddr 4096) ∧
    (∀ (op : FlashOp) (mem0 : Mem), erasedAt mem0 (flashAddr 4096) →
      erasedAt (stepMem op mem0) (flashAddr 4096) ∨
      ∃ o d l, op = FlashOp.write o d l ∧ flashAddr o = flashAddr 4096 ∧
        (flash_write_safe mem0 o d l).2.2 = none)) :=
  claim_C3_post_erase memWritten 4096 (by decide) (by decide)

/-- Claim C4 (amended): for every offset whose absolute address is not a
multiple of the sector size, flash_read_safe, flash_erase_safe,
get_flash_write_count and get_flash_data_length fail MisalignedOffset, and
flash_write_safe fails MisalignedOffset provided its payload is non-null
and non-empty (a null or empty payload is rejected first as
NullOrEmptyPayload); in every case no erase or program primitive runs and
the flash contents are unchanged. -/
theorem claim_C4_misaligned (offset : Nat)
    (hmis : flashAddr offset % FLASH_SECTOR_SIZE ≠ 0) :
    (∀ (mem : Mem) (d : Option (List Nat)) (l : Nat),
      ((d ≠ none ∧ l ≠ 0) →
        flash_write_safe mem offset d l =
          (mem, [], some FlashError.MisalignedOffset)) ∧
      (flash_write_safe mem offset d l).1 = mem ∧
      (flash_write_safe mem offset d l).2.1 = []) ∧
    (∀ (mem : Mem) (buffer : List Nat) (buffer_len : Nat),
      flash_read_safe mem offset buffer buffer_len =
        (buffer, [], some FlashError.MisalignedOffset)) ∧
    (∀ mem : Mem, flash_erase_safe mem offset =
      (mem, [], some FlashError.MisalignedOffset)) ∧
    (∀ mem : Mem, get_flash_write_count mem offset =
      (0, some FlashError.MisalignedOffset)) ∧
    (∀ mem : Mem, get_flash_data_length mem offset =
      (0, some FlashError.MisalignedOffset)) := by
  refine ⟨?_, ?_, ?_, ?_, ?_⟩
  · intro mem d l
    by_cases hne : d = none ∨ l = 0
    · refine ⟨?_, ?_, ?_⟩
      · rintro ⟨h1, h2⟩
        rcases hne with hne | hne
        · exact absurd hne h1
        · exact absurd hne h2
      · simp only [flash_write_safe, if_pos hne]
      · simp only [flash_write_safe, if_pos hne]
    · have heq : flash_write_safe mem offset d l =
          (mem, [], some FlashError.MisalignedOffset) := by
        simp only [flash_write_safe]
        rw [if_neg hne, if_pos hmis]
      exact ⟨fun _ => heq, by rw [heq], by rw [heq]⟩
  · intro mem buffer buffer_len
    simp only [flash_read_safe]
    rw [if_pos hmis]
  · intro mem
    simp only [flash_erase_safe]
    rw [if_pos hmis]
  · intro mem
    simp only [get_flash_write_count]
    rw [if_pos hmis]
  · intro mem
    simp only [get_flash_data_length]
    rw [if_pos hmis]

/-- Witness for claim C4 at the misaligned offset 1. -/
theorem claim_C4_misaligned_witness :
    flashAddr 1 % FLASH_SECTOR_SIZE ≠ 0 ∧
    ((∀ (mem : Mem) (d : Option (List Nat)) (l : Nat),
      ((d ≠ none ∧ l ≠ 0) →
        flash_write_safe mem 1 d l =
          (mem, [], some FlashError.MisalignedOffset)) ∧
      (flash_write_safe mem 1 d l).1 = mem ∧
      (flash_write_safe mem 1 d l).2.1 = []) ∧
    (∀ (mem : Mem) (buffer : List Nat) (buffer_len : Nat),
      flash_read_safe mem 1 buffer buffer_len =
        (buffer, [], some FlashError.MisalignedOffset)) ∧
    (∀ mem : Mem, flash_erase_safe mem 1 =
      (mem, [], some FlashError.MisalignedOffset)) ∧
    (∀ mem : Mem, get_flash_write_count mem 1 =
      (0, some FlashError.MisalignedOffset)) ∧
    (∀ mem : Mem, get_flash_data_length mem 1 =
      (0, some FlashError.MisalignedOffset))) :=
  ⟨by decide, claim_C4_misaligned 1 (by decide)⟩

/-- Counterexample to claim C4 as stated: at the misaligned offset 1 with
a NULL payload, flash_write_safe fails NullOrEmptyPayload, not
MisalignedOffset, because the null-payload check runs before the alignment
check. -/
theorem claim_C4_counterexample :
    flashAddr 1 % FLASH_SECTOR_SIZE ≠ 0 ∧
    (flash_write_safe memFresh 1 none 0).2.2 =
      some FlashError.NullOrEmptyPayload ∧
    (flash_write_safe memFresh 1 none 0).2.2 ≠
      some FlashError.MisalignedOffset := by
  decide

/-- Claim C7: a write to a block whose stored write_count is the
never-used sentinel 0xFFFFFFFF treats the sentinel as 0 and stores
write_count = 1, so get_flash_write_count returns 1 after the first
successful write to a fresh block. -/
theorem claim_C7_first_write (mem : Mem) (offset : Nat) (p : List Nat)
    (data_len : Nat)
    (halign : flashAddr offset % FLASH_SECTOR_SIZE = 0)
    (hbound : (flashAddr offset + METADATA_SIZE) % U32 ≤
      FLASH_TARGET_OFFSET + FLASH_SIZE)
    (hfresh : (mem (flashAddr offset)).write_count = U32 - 1)
    (hpos : data_len ≠ 0)
    (hmax : data_len ≤ FLASH_SECTOR_SIZE - METADATA_SIZE) :
    (flash_write_safe mem offset (some p) data_len).2.2 = none ∧
    ((flash_write_safe mem offset (some p) data_len).1
        (flashAddr offset)).write_count = 1 ∧
    (get_flash_write_count (flash_write_safe mem offset (some p) data_len).1
        offset).1 = 1 := by
  rw [flash_write_safe_ok mem offset p data_len halign hbound hpos hmax]
  dsimp only
  rw [get_flash_write_count_ok _ offset halign hbound, updMem_same]
  rw [if_pos hfresh]
  refine ⟨rfl, ?_, ?_⟩
  · show (0 + 1) % U32 = 1
    decide
  · show (0 + 1) % U32 = 1
    decide

/-- Witness for claim C7: first write at offset 4096 on fresh flash. -/
theorem claim_C7_first_write_witness :
    ((flash_write_safe memFresh 4096 (some [170]) 1).2.2 = none ∧
    ((flash_write_safe memFresh 4096 (some [170]) 1).1
        (flashAddr 4096)).write_count = 1 ∧
    (get_flash_write_count (flash_write_safe memFresh 4096 (some [170]) 1).1
        4096).1 = 1) :=
  claim_C7_first_write memFresh 4096 [170] 1 (by decide) (by decide) (by decide)
    (by decide) (by decide)

/-- Claim C10: at an aligned in-bounds offset whose block is in the
erased, never-programmed state (all bytes 0xFF), get_flash_write_count
returns the raw sentinel 4294967295 rather than 0; only the write path maps
the sentinel to 0, storing write_count 1. -/
theorem claim_C10_raw_sentinel (mem : Mem) (offset : Nat)
    (halign : flashAddr offset % FLASH_SECTOR_SIZE = 0)
    (hbound : (flashAddr offset + METADATA_SIZE) % U32 ≤
      FLASH_TARGET_OFFSET + FLASH_SIZE)
    (hfresh : mem (flashAddr offset) = freshBlock) :
    get_flash_write_count mem offset = (4294967295, none) ∧
    (get_flash_write_count mem offset).1 ≠ 0 ∧
    (∀ (p : List Nat) (data_len : Nat), data_len ≠ 0 →
      data_len ≤ FLASH_SECTOR_SIZE - METADATA_SIZE →
      ((flash_write_safe mem offset (some p) data_len).1
          (flashAddr offset)).write_count = 1) := by
  rw [get_flash_write_count_ok mem offset halign hbound, hfresh]
  refine ⟨rfl, by decide, ?_⟩
  intro p data_len hpos hmax
  rw [flash_write_safe_ok mem offset p data_len halign hbound hpos hmax]
  dsimp only
  rw [updMem_same, hfresh]
  rw [if_pos (show freshBlock.write_count = U32 - 1 by decide)]
  show (0 + 1) % U32 = 1
  decide

/-- Witness for claim C10 at offset 4096 on fresh flash. -/
theorem claim_C10_raw_sentinel_witness :
    (get_flash_write_count memFresh 4096 = (4294967295, none) ∧
    (get_flash_write_count memFresh 4096).1 ≠ 0 ∧
    (∀ (p : List Nat) (data_len : Nat), data_len ≠ 0 →
      data_len ≤ FLASH_SECTOR_SIZE - METADATA_SIZE →
      ((flash_write_safe memFresh 4096 (some p) data_len).1
          (flashAddr 4096)).write_count = 1)) :=
  claim_C10_raw_sentinel memFresh 4096 (by decide) (by decide) (by decide)

/-- Claim C8 (amended): on a valid aligned offset holding a valid record
with payload_len > 0, flash_read_safe copies exactly
min(buffer_len, payload_len) payload bytes into the caller buffer, leaves
the rest of the buffer unchanged, and never reads payload bytes past
payload_len (two stored payloads agreeing on their first payload_len bytes
give identical results); the C function returns void, so the byte count is
not returned to the caller. -/
theorem claim_C8_read_copies_min (mem : Mem) (offset : Nat)
    (buffer p : List Nat) (buffer_len v wc dl : Nat)
    (halign : flashAddr offset % FLASH_SECTOR_SIZE = 0)
    (hbound : (flashAddr offset + METADATA_SIZE) % U32 ≤
      FLASH_TARGET_OFFSET + FLASH_SIZE)
    (hmem : mem (flashAddr offset) =
      { valid := v, write_count := wc, data_len := dl, data_ptr := some p })
    (hv : v ≠ 0) (hdl : dl ≠ 0) :
    (flash_read_safe mem offset buffer buffer_len).1 =
      (List.range (min buffer_len dl)).map (fun i => p.getD i 0) ++
        buffer.drop (min buffer_len dl) ∧
    bytes_copied mem offset buffer_len = min buffer_len dl ∧
    (∀ (mem2 : Mem) (q : List Nat),
      mem2 (flashAddr offset) =
        { valid := v, write_count := wc, data_len := dl, data_ptr := some q } →
      (∀ i, i < dl → p.getD i 0 = q.getD i 0) →
      flash_read_safe mem2 offset buffer buffer_len =
        flash_read_safe mem offset buffer buffer_len) := by
  rw [flash_read_safe_ok mem offset buffer buffer_len halign hbound
    (by rw [hmem]; exact hv) (by rw [hmem]; exact hdl)]
  rw [hmem]
  dsimp only
  simp only [Option.getD_some]
  refine ⟨by trivial, ?_, ?_⟩
  · simp only [bytes_copied, hmem]
  · intro mem2 q hmem2 hq
    rw [flash_read_safe_ok mem2 offset buffer buffer_len halign hbound
      (by rw [hmem2]; exact hv) (by rw [hmem2]; exact hdl)]
    rw [hmem2]
    dsimp only
    simp only [Option.getD_some]
    congr 1
    congr 1
    apply List.map_congr_left
    intro i hi
    rw [List.mem_range] at hi
    exact (hq i (lt_of_lt_of_le hi (Nat.min_le_right buffer_len dl))).symm

/-- Witness for claim C8: reading the 2-byte record at offset 4096 into a
3-byte buffer. -/
theorem claim_C8_read_copies_min_witness :
    ((flash_read_safe memWritten 4096 [0, 0, 0] 3).1 =
      (List.range (min 3 2)).map (fun i => ([170, 170] : List Nat).getD i 0) ++
        ([0, 0, 0] : List Nat).drop (min 3 2) ∧
    bytes_copied memWritten 4096 3 = min 3 2 ∧
    (∀ (mem2 : Mem) (q : List Nat),
      mem2 (flashAddr 4096) =
        { valid := 1, write_count := 1, data_len := 2, data_ptr := some q } →
      (∀ i, i < 2 → ([170, 170] : List Nat).getD i 0 = q.getD i 0) →
      flash_read_safe mem2 4096 [0, 0, 0] 3 =
        flash_read_safe memWritten 4096 [0, 0, 0] 3)) :=
  claim_C8_read_copies_min memWritten 4096 [0, 0, 0] [170, 170] 3 1 1 2
    (by decide) (by decide) (by decide) (by decide) (by decide)

/-- Counterexample to claim C8's return-value conjunct: two reads that
copy different numbers of bytes (2 and 3) return identical values to the
caller apart from the filled buffer — the void C function reports no byte
count. -/
theorem claim_C8_counterexample :
    bytes_copied memLen2 4096 5 = 2 ∧
    bytes_copied memLen3 4096 5 = 3 ∧
    bytes_copied memLen2 4096 5 ≠ bytes_copied memLen3 4096 5 ∧
    (flash_read_safe memLen2 4096 [0, 0, 0, 0, 0] 5).2 =
      (flash_read_safe memLen3 4096 [0, 0, 0, 0, 0] 5).2 := by
  decide

theorem flash_write_safe_trace_cases (mem : Mem) (offset : Nat)
    (d : Option (List Nat)) (l : Nat) :
    ((flash_write_safe mem offset d l).2.1 = [] ∧
      (flash_write_safe mem offset d l).2.2 ≠ none) ∨
    ((flash_write_safe mem offset d l).2.1 =
        [Event.disableInterrupts,
         Event.rangeErase (flashAddr offset) FLASH_SECTOR_SIZE,
         Event.rangeProgram (flashAddr offset) METADATA_SIZE,
         Event.restoreInterrupts] ∧
      (flash_write_safe mem offset d l).2.2 = none) := by
  simp only [flash_write_safe, flash_write_safe_struct]
  split
  · exact Or.inl ⟨rfl, by simp⟩
  split
  · exact Or.inl ⟨rfl, by simp⟩
  split
  · exact Or.inl ⟨rfl, by simp⟩
  split
  · exact Or.inl ⟨rfl, by simp⟩
  · exact Or.inr ⟨rfl, rfl⟩

theorem flash_erase_safe_trace_cases (mem : Mem) (offset : Nat) :
    ((flash_erase_safe mem offset).2.1 = [] ∧
      (flash_erase_safe mem offset).2.2 ≠ none) ∨
    ((flash_erase_safe mem offset).2.1 =
        [Event.disableInterrupts,
         Event.rangeErase (flashAddr offset) FLASH_SECTOR_SIZE,
         Event.rangeProgram (flashAddr offset) METADATA_SIZE,
         Event.restoreInterrupts] ∧
      (flash_erase_safe mem offset).2.2 = none) := by
  by_cases h1 : flashAddr offset % FLASH_SECTOR_SIZE = 0
  · by_cases h2 : (flashAddr offset + METADATA_SIZE) % U32 >
        FLASH_TARGET_OFFSET + FLASH_SIZE
    · left
      simp only [flash_erase_safe]
      rw [if_neg (by simp [h1]), if_pos h2]
      exact ⟨rfl, by simp⟩
    · right
      rw [flash_erase_safe_ok mem offset h1 (by omega)]
      exact ⟨rfl, rfl⟩
  · left
    simp only [flash_erase_safe]
    rw [if_pos h1]
    exact ⟨rfl, by simp⟩

/-- Claim C9: in every execution of flash_write_safe and flash_erase_safe,
interrupts are disabled only after all validation checks have passed (every
failing execution emits no hardware events at all, so no disable), and every
execution that disables interrupts emits exactly the event sequence
disable, erase, program, restore — restoring interrupts exactly once, as the
final action before returning. -/
theorem claim_C9_interrupt_discipline (mem : Mem) (offset : Nat)
    (d : Option (List Nat)) (l : Nat) :
    ((flash_write_safe mem offset d l).2.2 ≠ none →
      (flash_write_safe mem offset d l).2.1 = []) ∧
    (Event.disableInterrupts ∈ (flash_write_safe mem offset d l).2.1 →
      (flash_write_safe mem offset d l).2.2 = none ∧
      (flash_write_safe mem offset d l).2.1 =
        [Event.disableInterrupts,
         Event.rangeErase (flashAddr offset) FLASH_SECTOR_SIZE,
         Event.rangeProgram (flashAddr offset) METADATA_SIZE,
         Event.restoreInterrupts] ∧
      ((flash_write_safe mem offset d l).2.1).count
        Event.restoreInterrupts = 1 ∧
      ((flash_write_safe mem offset d l).2.1).getLast? =
        some Event.restoreInterrupts) ∧
    ((flash_erase_safe mem offset).2.2 ≠ none →
      (flash_erase_safe mem offset).2.1 = []) ∧
    (Event.disableInterrupts ∈ (flash_erase_safe mem offset).2.1 →
      (flash_erase_safe mem offset).2.2 = none ∧
      (flash_erase_safe mem offset).2.1 =
        [Event.disableInterrupts,
         Event.rangeErase (flashAddr offset) FLASH_SECTOR_SIZE,
         Event.rangeProgram (flashAddr offset) METADATA_SIZE,
         Event.restoreInterrupts] ∧
      ((flash_erase_safe mem offset).2.1).count Event.restoreInterrupts = 1 ∧
      ((flash_erase_safe mem offset).2.1).getLast? =
        some Event.restoreInterrupts) := by
  rcases flash_write_safe_trace_cases mem offset d l with ⟨hw1, hw2⟩ | ⟨hw1, hw2⟩ <;>
    rcases flash_erase_safe_trace_cases mem offset with ⟨he1, he2⟩ | ⟨he1, he2⟩ <;>
    refine ⟨?_, ?_, ?_, ?_⟩ <;>
    simp only [hw1, hw2, he1, he2] <;>
    simp [List.count_cons, List.count_nil]

/-- Witness for claim C9: a successful write and erase at offset 4096,
both of which disable interrupts. -/
theorem claim_C9_interrupt_discipline_witness :
    Event.disableInterrupts ∈
      (flash_write_safe memFresh 4096 (some [170]) 1).2.1 ∧
    Event.disableInterrupts ∈ (flash_erase_safe memFresh 4096).2.1 ∧
    (((flash_write_safe memFresh 4096 (some [170]) 1).2.2 ≠ none →
      (flash_write_safe memFresh 4096 (some [170]) 1).2.1 = []) ∧
    (Event.disableInterrupts ∈ (flash_write_safe memFresh 4096 (some [170]) 1).2.1 →
      (flash_write_safe memFresh 4096 (some [170]) 1).2.2 = none ∧
      (flash_write_safe memFresh 4096 (some [170]) 1).2.1 =
        [Event.disableInterrupts,
         Event.rangeErase (flashAddr 4096) FLASH_SECTOR_SIZE,
         Event.rangeProgram (flashAddr 4096) METADATA_SIZE,
         Event.restoreInterrupts] ∧
      ((flash_write_safe memFresh 4096 (some [170]) 1).2.1).count
        Event.restoreInterrupts = 1 ∧
      ((flash_write_safe memFresh 4096 (some [170]) 1).2.1).getLast? =
        some Event.restoreInterrupts) ∧
    ((flash_erase_safe memFresh 4096).2.2 ≠ none →
      (flash_erase_safe memFresh 4096).2.1 = []) ∧
    (Event.disableInterrupts ∈ (flash_erase_safe memFresh 4096).2.1 →
      (flash_erase_safe memFresh 4096).2.2 = none ∧
      (flash_erase_safe memFresh 4096).2.1 =
        [Event.disableInterrupts,
         Event.rangeErase (flashAddr 4096) FLASH_SECTOR_SIZE,
         Event.rangeProgram (flashAddr 4096) METADATA_SIZE,
         Event.restoreInterrupts] ∧
      ((flash_erase_safe memFresh 4096).2.1).count Event.restoreInterrupts = 1 ∧
      ((flash_erase_safe memFresh 4096).2.1).getLast? =
        some Event.restoreInterrupts)) :=
  ⟨by decide, by decide,
    claim_C9_interrupt_discipline memFresh 4096 (some [170]) 1⟩

theorem u32_digits_recombine (n : Nat) (hn : n < U32) :
    n % 256 + 256 * (n / 256 % 256) + 65536 * (n / 65536 % 256) +
      16777216 * (n / 16777216 % 256) = n := by
  unfold U32 at hn
  omega

theorem deserialize_serialized (v wc dl : Nat) (p tail : List Nat)
    (hwc : wc < U32) (hdl : dl < U32) (hlen : p.length = dl) :
    deserialize_flash_data
      (memOfBuffer ([v] ++ le4 wc ++ le4 dl ++ p ++ tail) []) =
      { valid := v, write_count := wc, data_len := dl, data_ptr := some p } := by
  subst hlen
  simp only [deserialize_flash_data, memOfBuffer, List.append_nil, rd4, le4,
    List.cons_append, List.nil_append, List.getD_cons_zero, List.getD_cons_succ]
  rw [u32_digits_recombine wc hwc, u32_digits_recombine p.length hdl]
  simp only [flash_data.mk.injEq, true_and, Option.some.injEq]
  refine Eq.trans (List.map_congr_left ?_) (range_map_getD p)
  intro i hi
  rw [List.mem_range] at hi
  show (([v, wc % 256, wc / 256 % 256, wc / 65536 % 256, wc / 16777216 % 256,
      p.length % 256, p.length / 256 % 256, p.length / 65536 % 256,
      p.length / 16777216 % 256] : List Nat) ++ (p ++ tail)).getD (9 + i) 0
      = p.getD i 0
  rw [List.getD_append_right _ _ _ _ (by simp)]
  have h2 : 9 + i - ([v, wc % 256, wc / 256 % 256, wc / 65536 % 256,
      wc / 16777216 % 256, p.length % 256, p.length / 256 % 256,
      p.length / 65536 % 256, p.length / 16777216 % 256] : List Nat).length
      = i := by simp
  rw [h2]
  exact List.getD_append p tail 0 i hi

theorem serialize_flash_data_ok (d : flash_data) (p buffer : List Nat)
    (hp : d.data_ptr = some p) (hpos : 0 < d.data_len)
    (hbuf : SERIALIZED_METADATA_SIZE + d.data_len ≤ buffer.length) :
    serialize_flash_data d buffer =
      [d.valid % 256] ++ le4 d.write_count ++ le4 d.data_len ++
        (List.range d.data_len).map (fun i => p.getD i 0) ++
        buffer.drop (SERIALIZED_METADATA_SIZE + d.data_len) := by
  simp only [serialize_flash_data, hp]
  rw [if_neg (by
    have := Nat.mod_le (SERIALIZED_METADATA_SIZE + d.data_len) U32
    omega)]
  rw [if_pos hpos]

/-- Claim C5: encode (serialize_flash_data) of a record with a non-null
payload pointer and positive length, into a buffer of at least
metadata_size + data_len bytes, writes exactly the metadata_size + data_len
bytes valid, write_count (little-endian), payload_len (little-endian),
payload — leaving the rest of the buffer untouched — and decode
(deserialize_flash_data) of the result reconstructs the record exactly.
Here metadata_size is the codec's serialized header size
sizeof(valid) + sizeof(write_count) + sizeof(data_len) = 9. -/
theorem claim_C5_codec_round_trip (d : flash_data) (p buffer : List Nat)
    (hp : d.data_ptr = some p) (hlen : p.length = d.data_len)
    (hpos : 0 < d.data_len) (hv : d.valid < 256)
    (hwc : d.write_count < U32) (hdl : d.data_len < U32)
    (hbuf : SERIALIZED_METADATA_SIZE + d.data_len ≤ buffer.length) :
    serialize_flash_data d buffer =
      [d.valid] ++ le4 d.write_count ++ le4 d.data_len ++ p ++
        buffer.drop (SERIALIZED_METADATA_SIZE + d.data_len) ∧
    ([d.valid] ++ le4 d.write_count ++ le4 d.data_len ++ p).length =
      SERIALIZED_METADATA_SIZE + d.data_len ∧
    deserialize_flash_data
      (memOfBuffer (serialize_flash_data d buffer) []) = d := by
  have hser : serialize_flash_data d buffer =
      [d.valid] ++ le4 d.write_count ++ le4 d.data_len ++ p ++
        buffer.drop (SERIALIZED_METADATA_SIZE + d.data_len) := by
    rw [serialize_flash_data_ok d p buffer hp hpos hbuf]
    rw [Nat.mod_eq_of_lt hv]
    rw [← hlen, range_map_getD]
  refine ⟨hser, ?_, ?_⟩
  · simp only [List.length_append, List.length_cons, List.length_nil, le4,
      SERIALIZED_METADATA_SIZE, hlen]
    try omega
  · rw [hser]
    have := deserialize_serialized d.valid d.write_count d.data_len p
      (buffer.drop (SERIALIZED_METADATA_SIZE + d.data_len)) hwc hdl hlen
    rw [this]
    rw [← hp]

/-- Witness for claim C5: a record with valid 1, write_count 77777 and
payload [10, 20, 30] serialized into a 14-byte buffer. -/
theorem claim_C5_codec_round_trip_witness :
    (serialize_flash_data
        { valid := 1, write_count := 77777, data_len := 3,
          data_ptr := some [10, 20, 30] }
        [9, 9, 9, 9, 9, 9, 9, 9, 9, 9, 9, 9, 9, 9] =
      [1] ++ le4 77777 ++ le4 3 ++ [10, 20, 30] ++
        ([9, 9, 9, 9, 9, 9, 9, 9, 9, 9, 9, 9, 9, 9] : List Nat).drop
          (SERIALIZED_METADATA_SIZE + 3) ∧
    ([1] ++ le4 77777 ++ le4 3 ++ [10, 20, 30]).length =
      SERIALIZED_METADATA_SIZE + 3 ∧
    deserialize_flash_data
      (memOfBuffer (serialize_flash_data
        { valid := 1, write_count := 77777, data_len := 3,
          data_ptr := some [10, 20, 30] }
        [9, 9, 9, 9, 9, 9, 9, 9, 9, 9, 9, 9, 9, 9]) []) =
      { valid := 1, write_count := 77777, data_len := 3,
        data_ptr := some [10, 20, 30] }) :=
  claim_C5_codec_round_trip
    { valid := 1, write_count := 77777, data_len := 3,
      data_ptr := some [10, 20, 30] }
    [10, 20, 30] [9, 9, 9, 9, 9, 9, 9, 9, 9, 9, 9, 9, 9, 9]
    (by decide) (by decide) (by decide) (by decide) (by decide) (by decide)
    (by decide)

/-- Counterexample to claim C6 as stated: deserialize_flash_data has no
length parameter and performs no shortness check — on a 3-byte buffer it
still produces a record, reading the bytes that happen to follow the
buffer, instead of failing with MalformedRecord. -/
theorem claim_C6_counterexample :
    shortBuffer.length < SERIALIZED_METADATA_SIZE ∧
    shortBuffer.length < METADATA_SIZE ∧
    deserialize_flash_data
      (memOfBuffer shortBuffer [0, 0, 0, 0, 0, 0, 0]) =
      { valid := 1, write_count := 770, data_len := 0, data_ptr := some [] } := by
  decide

/-- Claim C6 (amended): deserialize_flash_data receives no buffer length and
performs no shortness check; it reads exactly the 9 header bytes and the
payload_len payload bytes at the pointer, producing a record from whatever
bytes lie there (reading past the end of a shorter buffer), and it never
interprets any byte at or beyond offset 9 + payload_len as part of the
record: two byte memories that agree below 9 + payload_len decode to the
same record. -/
theorem claim_C6_reads_only_declared_prefix (m1 m2 : Nat → Nat)
    (h : ∀ i, i < SERIALIZED_METADATA_SIZE + rd4 m1 5 → m1 i = m2 i) :
    deserialize_flash_data m1 = deserialize_flash_data m2 := by
  have hlen : rd4 m1 5 = rd4 m2 5 := by
    simp only [rd4]
    rw [h 5 (by unfold SERIALIZED_METADATA_SIZE; omega),
        h 6 (by unfold SERIALIZED_METADATA_SIZE; omega),
        h 7 (by unfold SERIALIZED_METADATA_SIZE; omega),
        h 8 (by unfold SERIALIZED_METADATA_SIZE; omega)]
  simp only [deserialize_flash_data, flash_data.mk.injEq]
  refine ⟨?_, ?_, ?_, ?_⟩
  · exact h 0 (by unfold SERIALIZED_METADATA_SIZE; omega)
  · simp only [rd4]
    rw [h 1 (by unfold SERIALIZED_METADATA_SIZE; omega),
        h 2 (by unfold SERIALIZED_METADATA_SIZE; omega),
        h 3 (by unfold SERIALIZED_METADATA_SIZE; omega),
        h 4 (by unfold SERIALIZED_METADATA_SIZE; omega)]
  · exact hlen
  · rw [← hlen]
    congr 1
    apply List.map_congr_left
    intro i hi
    rw [List.mem_range] at hi
    exact h (9 + i) (by unfold SERIALIZED_METADATA_SIZE; omega)

/-- Witness for claim C6's amended theorem: two 11-byte memories that
agree on the first 9 + payload_len = 10 bytes and differ at byte 10 decode
to the same record. -/
theorem claim_C6_reads_only_declared_prefix_witness :
    (∀ i, i < SERIALIZED_METADATA_SIZE +
        rd4 (memOfBuffer [1, 0, 0, 0, 0, 1, 0, 0, 0, 7, 99] []) 5 →
      memOfBuffer [1, 0, 0, 0, 0, 1, 0, 0, 0, 7, 99] [] i =
      memOfBuffer [1, 0, 0, 0, 0, 1, 0, 0, 0, 7, 55] [] i) ∧
    memOfBuffer [1, 0, 0, 0, 0, 1, 0, 0, 0, 7, 99] [] 10 ≠
      memOfBuffer [1, 0, 0, 0, 0, 1, 0, 0, 0, 7, 55] [] 10 ∧
    deserialize_flash_data (memOfBuffer [1, 0, 0, 0, 0, 1, 0, 0, 0, 7, 99] []) =
      deserialize_flash_data (memOfBuffer [1, 0, 0, 0, 0, 1, 0, 0, 0, 7, 55] []) :=
  ⟨by decide, by decide,
    claim_C6_reads_only_declared_prefix
      (memOfBuffer [1, 0, 0, 0, 0, 1, 0, 0, 0, 7, 99] [])
      (memOfBuffer [1, 0, 0, 0, 0, 1, 0, 0, 0, 7, 55] []) (by decide)⟩
